import Mathlib

/-!
Verification of the arvet-slam core components against their specification:
the multi-series timestamp association engine (`associate_data` in
`arvet_slam/dataset/tum/tum_loader.py` and
`arvet_slam/dataset/euroc/euroc_loader.py`), the pose-error calculator
(`make_pose_error` in `arvet_slam/metrics/frame_error/frame_error_result.py`),
the trial finishing protocol of the ORB-SLAM2 wrapper, aggregate column
selection in `FrameErrorResult.get_results`, and the TUM dataset file
discovery in `tum_loader.find_files` / `tum_loader.import_dataset`.

Timestamps are "a real-valued or integer tick", always totally ordered,
with association tolerances in the same unit; they are embedded as an
arbitrary linearly ordered additive group `K` (instantiated at `ℤ` for
concrete evaluations; the TUM loader uses fractional seconds, the EuRoC
loader integer nanoseconds).  Python dicts are association lists with
unique keys, and Python's `sorted` is `List.insertionSort`.
-/

set_option linter.unusedSectionVars false

namespace ArvetSlam

section Association

variable {K : Type} [LinearOrder K] [SubNegMonoid K]

/-! ### Timestamp-keyed series (Python dicts keyed by timestamps) -/

/-- The list of keys of a timestamped map (`map.keys()` in iteration order). -/
def mapKeys {α : Type} (m : List (K × α)) : List K := m.map Prod.fst

/-- Dictionary lookup `m[k]`: the payload of the first entry keyed `k`.
Python raises `KeyError` on a missing key; every lookup performed by the
embedded code is on a key known to be present, so a default payload stands
in for the unreachable error case. -/
def lookupD {α : Type} [Inhabited α] (m : List (K × α)) (k : K) : α :=
  match m.find? (fun kv => decide (kv.1 = k)) with
  | some kv => kv.2
  | none => default

/-- Ordering rows of an association table by their timestamp key. -/
def keyLE {β : Type} : (K × β) → (K × β) → Prop := fun a b => a.1 ≤ b.1

instance {β : Type} : DecidableRel (keyLE (K := K) (β := β)) :=
  fun a b => inferInstanceAs (Decidable (a.1 ≤ b.1))

instance {β : Type} : IsTotal (K × β) keyLE := ⟨fun a b => le_total a.1 b.1⟩

instance {β : Type} : IsTrans (K × β) keyLE := ⟨fun _ _ _ => le_trans⟩

/-- Python's `sorted` applied to a list of `[key, value...]` rows with
distinct keys: sort ascending by the key. -/
def sortRows {β : Type} (rows : List (K × β)) : List (K × β) :=
  rows.insertionSort keyLE

/-! ### The greedy timestamp matcher

`arvet.util.associate` is an external collaborator of this repository
(the `arvet` support library), so it is reconstructed here from the
specification. -/

/-- The absolute difference between two timestamps ("tolerance is
exclusive of sign"). -/
def absDiff (a b : K) : K := if a - b < 0 then -(a - b) else a - b

/-- Modelled from the spec: the candidate pairs considered by
`arvet.util.associate` — every pair of one reference key and one secondary
key whose absolute difference does not exceed the tolerance, tagged with
that difference. -/
def candidatePairs (maxDiff : K) (firstKeys secondKeys : List K) :
    List (K × K × K) :=
  firstKeys.flatMap (fun a => secondKeys.filterMap (fun b =>
    if absDiff a b ≤ maxDiff then some (absDiff a b, a, b) else none))

/-- Candidate pair ordering: globally smallest pairwise difference first,
ties broken deterministically by reference key then secondary key. -/
def candLE (p q : K × K × K) : Prop :=
  p.1 < q.1 ∨ (p.1 = q.1 ∧
    (p.2.1 < q.2.1 ∨ (p.2.1 = q.2.1 ∧ p.2.2 ≤ q.2.2)))

instance : DecidableRel (candLE (K := K)) := fun p q =>
  inferInstanceAs (Decidable (p.1 < q.1 ∨ (p.1 = q.1 ∧
    (p.2.1 < q.2.1 ∨ (p.2.1 = q.2.1 ∧ p.2.2 ≤ q.2.2)))))

/-- Modelled from the spec: consume the difference-sorted candidate pairs
greedily, accepting a pair only while both of its keys are still
unclaimed. -/
def greedyMatch : List (K × K × K) → List K → List K → List (K × K)
  | [], _, _ => []
  | p :: rest, fs, ss =>
    if p.2.1 ∈ fs ∧ p.2.2 ∈ ss then
      (p.2.1, p.2.2) :: greedyMatch rest (fs.erase p.2.1) (ss.erase p.2.2)
    else greedyMatch rest fs ss

/-- Modelled from the spec: `arvet.util.associate(first, second, offset=0,
max_difference)` — a best-effort one-to-one matching between the two key
sets: each key matches at most once, matched keys differ by at most the
tolerance, globally smallest differences are claimed first, and the
resulting `(reference key, secondary key)` pairs are returned sorted. -/
def associate {α : Type} (maxDiff : K) (first second : List (K × α)) :
    List (K × K) :=
  let fk := (mapKeys first).dedup
  let sk := (mapKeys second).dedup
  sortRows (greedyMatch ((candidatePairs maxDiff fk sk).insertionSort candLE) fk sk)

/-- The rekeyed map built by `associate_data` for one secondary series:
`{root_key: other_map[other_key] for root_key, other_key in matches}`. -/
def rekeyMap {α : Type} [Inhabited α] (maxDiff : K) (root other : List (K × α)) :
    List (K × α) :=
  (associate maxDiff root other).map (fun ab => (ab.1, lookupD other ab.2))

/-- `set(other_map.keys()) == root_keys` — key-set equality as Python sets. -/
def sameKeySet {α β : Type} (m : List (K × α)) (root : List (K × β)) : Bool :=
  decide ((mapKeys m).toFinset = (mapKeys root).toFinset)

/-- `associate_data(root_map, *args)` from `tum_loader.py` / `euroc_loader.py`
(identical in both up to the tolerance constant, which is the `maxDiff`
parameter here: 1 for TUM, 3 for EuRoC): flatten a reference map and any
number of secondary maps into rows `[key, root[key], other1[key], ...]`
sorted by key, associating near-miss timestamps when the key sets differ. -/
def associate_data {α : Type} [Inhabited α] (maxDiff : K)
    (root : List (K × α)) (args : List (List (K × α))) : List (K × List α) :=
  if args.length = 0 then
    sortRows (root.map (fun kv => (kv.1, [kv.2])))
  else if args.all (fun m => sameKeySet m root) then
    sortRows (((mapKeys root).dedup).map
      (fun k => (k, lookupD root k :: args.map (fun m => lookupD m k))))
  else
    let rekeyed := args.map (fun other => rekeyMap maxDiff root other)
    let finalKeys := ((mapKeys root).dedup).filter
      (fun k => rekeyed.all (fun m => decide (k ∈ mapKeys m)))
    sortRows (finalKeys.map
      (fun k => (k, lookupD root k :: rekeyed.map (fun m => lookupD m k))))

end Association

/-! ### The trial finishing protocol

The ORB-SLAM2 wrapper (`arvet_slam/systems/slam/orbslam2.py`) is exercised
by its tests but its own source is not part of this tree, so `finish_trial`
is modelled from the specification of the trial execution protocol. -/

/-- Per-frame algorithm confidence classification. -/
inductive TrackingState : Type
  | not_initialized : TrackingState
  | ok : TrackingState
  | lost : TrackingState
deriving DecidableEq

/-- One entry of the worker's returned payload:
`[processing_time, num_features, num_matches, tracking_state, pose_matrix]`.
Only the translation column of the pose matrix is modelled. -/
structure FrameData : Type where
  processing_time : ℚ
  num_features : ℕ
  num_matches : ℕ
  tracking_state : TrackingState
  pose : ℚ × ℚ × ℚ
deriving DecidableEq

/-- A per-frame record of the finished trial. -/
structure FrameRecord (K : Type) : Type where
  timestamp : K
  processing_time : ℚ
  num_features : ℕ
  num_matches : ℕ
  tracking_state : TrackingState
  estimated_location : ℚ × ℚ × ℚ
deriving DecidableEq

/-- `dict.get`-style lookup in a timestamp-keyed mapping. -/
def lookup? {K α : Type} [DecidableEq K] (m : List (K × α)) (k : K) :
    Option α :=
  (m.find? (fun kv => decide (kv.1 = k))).map Prod.snd

/-- Modelled from the spec: building one FrameRecord from a fed timestamp
and the worker's returned data for it, remapping the worker's native-frame
translation `(tx, ty, tz)` to the canonical `(tz, -tx, -ty)`. -/
def make_frame_record {K : Type} (t : K) (d : FrameData) : FrameRecord K :=
  { timestamp := t
    processing_time := d.processing_time
    num_features := d.num_features
    num_matches := d.num_matches
    tracking_state := d.tracking_state
    estimated_location := (d.pose.2.2, -d.pose.1, -d.pose.2.1) }

/-- The result object handed to the sink when a trial finishes. -/
structure SLAMTrialResult (K : Type) : Type where
  results : List (FrameRecord K)
  success : Bool
  warned : List K

/-- Modelled from the spec: the reconciliation step of `finish()` — the
frame list actually processed is the intersection of fed timestamps and
returned timestamps, in the order frames were fed; returned timestamps
with no corresponding fed frame are logged as warnings and ignored; the
trial is marked successful exactly when at least one FrameRecord exists. -/
def finish_trial {K : Type} [DecidableEq K] (fed : List K)
    (returned : List (K × FrameData)) : SLAMTrialResult K :=
  let results := fed.filterMap
    (fun t => (lookup? returned t).map (fun d => make_frame_record t d))
  { results := results
    success := decide (results ≠ [])
    warned := (returned.map Prod.fst).filter (fun t => decide (t ∉ fed)) }

/-! ### Poses and the pose-error calculator -/

/-- A rigid transform: a location and a w-first orientation quaternion
(`arvet.util.transform.Transform`, reduced to the fields the error
calculator reads). -/
structure Transform : Type where
  location : ℝ × ℝ × ℝ
  rotation : ℝ × ℝ × ℝ × ℝ

/-- `make_camera_pose` from `tum_loader.py` (the EuRoC loader's copy is
identical): convert a dataset pose from the native z-forward/y-right/x-down
frame into the canonical frame. -/
def make_camera_pose (tx ty tz qw qx qy qz : ℝ) : Transform :=
  { location := (tz, -tx, -ty)
    rotation := (qw, qz, -qx, -qy) }

/-- Modelled from the spec: the location part of `make_relative_pose` in
the ORB-SLAM2 wrapper — read the translation column of the worker's 4x4
pose matrix and remap `(tx, ty, tz)` to `(tz, -tx, -ty)`.  The rotation
remap is not needed by any claim and is left out. -/
def make_relative_pose_location (m : Fin 4 → Fin 4 → ℝ) : ℝ × ℝ × ℝ :=
  (m 2 3, -(m 0 3), -(m 1 3))

/-- The worker pose matrix used by `test_rearranges_location_coordinates`:
identity rotation with translation `(10, -22.4, 13.2)`. -/
def frame_delta : Fin 4 → Fin 4 → ℝ := fun i j =>
  if j = 3 then
    (if i = 0 then 10 else if i = 1 then -22.4 else if i = 2 then 13.2 else 1)
  else if i = j then 1 else 0

/-- Componentwise difference of two locations. -/
def sub3 (a b : ℝ × ℝ × ℝ) : ℝ × ℝ × ℝ :=
  (a.1 - b.1, a.2.1 - b.2.1, a.2.2 - b.2.2)

/-- `np.dot` on 3-vectors. -/
def dot3 (a b : ℝ × ℝ × ℝ) : ℝ :=
  a.1 * b.1 + a.2.1 * b.2.1 + a.2.2 * b.2.2

/-- `np.linalg.norm` on 3-vectors. -/
noncomputable def norm3 (a : ℝ × ℝ × ℝ) : ℝ :=
  Real.sqrt (a.1 ^ 2 + a.2.1 ^ 2 + a.2.2 ^ 2)

/-- Elementwise division of a vector by a scalar, as numpy broadcasts it. -/
noncomputable def div3 (a : ℝ × ℝ × ℝ) (c : ℝ) : ℝ × ℝ × ℝ :=
  (a.1 / c, a.2.1 / c, a.2.2 / c)

/-- `np.dot` on quaternions viewed as 4-vectors. -/
def dot4 (a b : ℝ × ℝ × ℝ × ℝ) : ℝ :=
  a.1 * b.1 + a.2.1 * b.2.1 + a.2.2.1 * b.2.2.1 + a.2.2.2 * b.2.2.2

/-- A unit quaternion, the invariant `Transform` maintains for its
orientation. -/
def unit_quat (q : ℝ × ℝ × ℝ × ℝ) : Prop :=
  q.1 ^ 2 + q.2.1 ^ 2 + q.2.2.1 ^ 2 + q.2.2.2 ^ 2 = 1

/-- Modelled from the spec: `arvet.util.transform.quat_diff` (external
support library) — the minimal rotation angle between two unit
quaternions, always defined and non-negative. -/
noncomputable def quat_diff (q1 q2 : ℝ × ℝ × ℝ × ℝ) : ℝ :=
  2 * Real.arccos (min 1 |dot4 q1 q2|)

/-- The translation/rotation error decomposition of a pose estimate
(`PoseError` fields of `frame_error_result.py`); an undefined (`np.nan`)
direction is `none`. -/
structure PoseError : Type where
  x : ℝ
  y : ℝ
  z : ℝ
  length : ℝ
  direction : Option ℝ
  rot : ℝ

/-- `make_pose_error` from `frame_error_result.py`. -/
noncomputable def make_pose_error (estimated_pose reference_pose : Transform) :
    PoseError :=
  let trans_error := sub3 estimated_pose.location reference_pose.location
  let trans_error_length := norm3 trans_error
  let trans_error_direction : Option ℝ :=
    if 0 < trans_error_length then
      let reference_norm := norm3 reference_pose.location
      if 0 < reference_norm then
        some (Real.arccos (min 1 (max 0
          (dot3 (div3 trans_error trans_error_length)
            (div3 reference_pose.location reference_norm)))))
      else none
    else none
  { x := trans_error.1
    y := trans_error.2.1
    z := trans_error.2.2
    length := trans_error_length
    direction := trans_error_direction
    rot := quat_diff (estimated_pose.rotation) (reference_pose.rotation) }

/-! ### Aggregate column selection in `FrameErrorResult.get_results` -/

/-- The five aggregate functions, tagged by the name they contribute to a
column name (the numpy function itself is irrelevant to column
selection). -/
inductive AggFunc : Type
  | fmin : AggFunc
  | fmax : AggFunc
  | fmean : AggFunc
  | fmedian : AggFunc
  | fstd : AggFunc
deriving DecidableEq

/-- The `funcs` table of `FrameErrorResult.get_results`. -/
def aggFuncs : List (String × AggFunc) :=
  [("min", AggFunc.fmin), ("max", AggFunc.fmax), ("mean", AggFunc.fmean),
    ("median", AggFunc.fmedian), ("std", AggFunc.fstd)]

/-- The `values` table of `FrameErrorResult.get_results`: column-name
fragment paired with the `TrialErrors` attribute the data is drawn from. -/
def aggValues : List (String × String) :=
  [("frames_lost", "frames_lost"), ("frames_found", "frames_found"),
    ("times_lost", "times_lost"), ("times_found", "times_found"),
    ("distance_lost", "distances_lost"), ("distance_found", "distances_found")]

/-- The `columns_to_compute` list comprehension of
`FrameErrorResult.get_results`: one `(column name, aggregate function,
data attribute)` triple for every function/value combination whose name
was requested. -/
def columns_to_compute (columns : List String) :
    List (String × AggFunc × String) :=
  aggValues.flatMap (fun cv => aggFuncs.filterMap (fun fv =>
    if fv.1 ++ "_" ++ cv.1 ∈ columns then
      some (fv.1 ++ "_" ++ cv.1, fv.2, cv.2)
    else none))

/-! ### TUM dataset file discovery -/

/-- The tuple returned by `find_files` in `tum_loader.py` once a candidate
root containing all three metadata files is found (the directory search
itself is pure filesystem walking and is abstracted away):
`return candidate_root, rgb_path, depth_path, trajectory_path`, where
`trajectory_path` joins `groundtruth.txt` and `depth_path` joins
`depth.txt`. -/
def find_files (candidate_root : String) : String × String × String × String :=
  let rgb_path := candidate_root ++ "/rgb.txt"
  let trajectory_path := candidate_root ++ "/groundtruth.txt"
  let depth_path := candidate_root ++ "/depth.txt"
  (candidate_root, rgb_path, depth_path, trajectory_path)

/-- The unpacking in `import_dataset`:
`root_folder, rgb_path, trajectory_path, depth_path = find_files(root_folder)`
followed by `read_trajectory(trajectory_path)` and
`read_image_filenames(depth_path)` — returns the pair (file parsed for the
ground-truth trajectory, file parsed for the depth image filenames). -/
def import_dataset_metadata_paths (root_folder : String) : String × String :=
  let t := find_files root_folder
  let trajectory_path := t.2.2.1
  let depth_path := t.2.2.2
  (trajectory_path, depth_path)

/-! ### Concrete trial scenarios (used by witnesses) -/

/-- The fed timestamps of the round-trip scenario: frames 0 through 9. -/
def fed_timestamps : List ℤ := [0, 1, 2, 3, 4, 5, 6, 7, 8, 9]

/-- A worker that echoes back a result for every fed timestamp except 5. -/
def echo_results : List (ℤ × FrameData) :=
  [(0, ⟨100, 15, 6, TrackingState.ok, (0, 0, 0)⟩),
   (1, ⟨101, 16, 7, TrackingState.ok, (1, 0, 0)⟩),
   (2, ⟨102, 17, 8, TrackingState.ok, (2, 0, 0)⟩),
   (3, ⟨103, 18, 9, TrackingState.ok, (3, 0, 0)⟩),
   (4, ⟨104, 19, 10, TrackingState.ok, (4, 0, 0)⟩),
   (6, ⟨106, 21, 12, TrackingState.ok, (6, 0, 0)⟩),
   (7, ⟨107, 22, 13, TrackingState.ok, (7, 0, 0)⟩),
   (8, ⟨108, 23, 14, TrackingState.ok, (8, 0, 0)⟩),
   (9, ⟨109, 24, 15, TrackingState.ok, (9, 0, 0)⟩)]

/-- A feed whose single timestamp matches nothing the worker returns. -/
def late_fed : List ℤ := [100]

/-- Worker results whose timestamps match no fed frame. -/
def orphan_results : List (ℤ × FrameData) :=
  [(0, ⟨50, 1, 2, TrackingState.lost, (0, 0, 0)⟩),
   (1, ⟨51, 3, 4, TrackingState.ok, (1, 0, 0)⟩)]

section AssociationTheorems

variable {K : Type} [LinearOrder K] [SubNegMonoid K]

/-! ### Basic facts about series lookups and sorting -/

theorem mem_sortRows {β : Type} {rows : List (K × β)} {x : K × β} :
    x ∈ sortRows rows ↔ x ∈ rows :=
  List.mem_insertionSort keyLE

theorem sortRows_perm {β : Type} (rows : List (K × β)) :
    (sortRows rows).Perm rows :=
  List.perm_insertionSort keyLE rows

theorem sortRows_sorted_keys {β : Type} (rows : List (K × β)) :
    ((sortRows rows).map Prod.fst).Sorted (· ≤ ·) :=
  List.Pairwise.map Prod.fst (fun _ _ h => h)
    (List.sorted_insertionSort keyLE rows)

theorem mem_mapKeys {α : Type} {m : List (K × α)} {k : K} :
    k ∈ mapKeys m ↔ ∃ v, (k, v) ∈ m := by
  constructor
  · intro h
    obtain ⟨kv, hkv, hfst⟩ := List.mem_map.mp h
    exact ⟨kv.2, by cases kv; cases hfst; exact hkv⟩
  · rintro ⟨v, hv⟩
    exact List.mem_map.mpr ⟨(k, v), hv, rfl⟩

theorem lookupD_mem {α : Type} [Inhabited α] {m : List (K × α)} {k : K}
    (h : k ∈ mapKeys m) : (k, lookupD m k) ∈ m := by
  unfold lookupD
  cases hfind : m.find? (fun kv => decide (kv.1 = k)) with
  | none =>
    obtain ⟨v, hv⟩ := mem_mapKeys.mp h
    have := List.find?_eq_none.mp hfind (k, v) hv
    simp at this
  | some kv =>
    have hmem := List.mem_of_find?_eq_some hfind
    have hkey : kv.1 = k := by
      have := List.find?_some hfind
      simpa using this
    cases kv
    cases hkey
    exact hmem

theorem eq_of_mem_nodupKeys {α : Type} {m : List (K × α)} {k : K} {v v' : α}
    (hnd : (mapKeys m).Nodup) (h : (k, v) ∈ m) (h' : (k, v') ∈ m) : v = v' := by
  induction m with
  | nil => cases h
  | cons kv t ih =>
    rw [mapKeys, List.map_cons, List.nodup_cons] at hnd
    rcases List.mem_cons.mp h with h1 | h1 <;>
      rcases List.mem_cons.mp h' with h2 | h2
    · rw [← h1] at h2
      injection h2 with _ e
      exact e.symm
    · exfalso
      exact hnd.1 (by rw [← h1]; exact List.mem_map.mpr ⟨(k, v'), h2, rfl⟩)
    · exfalso
      exact hnd.1 (by rw [← h2]; exact List.mem_map.mpr ⟨(k, v), h1, rfl⟩)
    · exact ih hnd.2 h1 h2

theorem lookupD_of_mem {α : Type} [Inhabited α] {m : List (K × α)} {k : K}
    {v : α} (hnd : (mapKeys m).Nodup) (h : (k, v) ∈ m) : lookupD m k = v :=
  eq_of_mem_nodupKeys hnd (lookupD_mem (mem_mapKeys.mpr ⟨v, h⟩)) h

theorem mapKeys_rekeyMap {α : Type} [Inhabited α] (maxDiff : K)
    (root other : List (K × α)) :
    mapKeys (rekeyMap maxDiff root other) =
      (associate maxDiff root other).map Prod.fst := by
  simp [rekeyMap, mapKeys, List.map_map, Function.comp]

/-- Sorting rows built over a duplicate-free key list keeps the key column
duplicate-free. -/
theorem sortRows_map_keys_nodup {β : Type} (l : List K) (f : K → β)
    (hl : l.Nodup) :
    ((sortRows (l.map (fun k => (k, f k)))).map Prod.fst).Nodup := by
  have hperm := (sortRows_perm (l.map (fun k => (k, f k)))).map Prod.fst
  rw [List.map_map] at hperm
  have hcomp : (Prod.fst ∘ fun k => ((k : K), f k)) = id := rfl
  rw [hcomp, List.map_id] at hperm
  exact hperm.nodup_iff.mpr hl

/-- Both the no-secondary-series branch and the identical-key-sets branch
of `associate_data` produce the rows of the direct-lookup table, sorted. -/
theorem associate_data_of_sameKeySet {α : Type} [Inhabited α] (maxDiff : K)
    (root : List (K × α)) (args : List (List (K × α)))
    (hnd : (mapKeys root).Nodup)
    (hsame : ∀ m ∈ args, sameKeySet m root = true) :
    associate_data maxDiff root args =
      sortRows ((mapKeys root).map
        (fun k => (k, lookupD root k :: args.map (fun m => lookupD m k)))) := by
  cases args with
  | nil =>
    rw [associate_data,
      if_pos (show ([] : List (List (K × α))).length = 0 from rfl)]
    congr 1
    rw [mapKeys, List.map_map]
    refine List.map_congr_left ?_
    rintro ⟨k, v⟩ hkv
    simp [Function.comp, lookupD_of_mem hnd hkv]
  | cons a as =>
    rw [associate_data, if_neg (by simp), if_pos (List.all_eq_true.mpr
      (fun m hm => hsame m hm)), hnd.dedup]

/-- The general branch of `associate_data`: rows are built over the
reference keys that survive the per-series key intersection. -/
theorem associate_data_of_diff {α : Type} [Inhabited α] (maxDiff : K)
    (root : List (K × α)) (args : List (List (K × α)))
    (hlen : args ≠ [])
    (hdiff : args.all (fun m => sameKeySet m root) = false) :
    associate_data maxDiff root args =
      sortRows (((mapKeys root).dedup.filter
          (fun k => (args.map (fun other => rekeyMap maxDiff root other)).all
            (fun m => decide (k ∈ mapKeys m)))).map
        (fun k => (k, lookupD root k ::
          (args.map (fun other => rekeyMap maxDiff root other)).map
            (fun m => lookupD m k)))) := by
  rw [associate_data, if_neg (by simpa using hlen), if_neg (by simp [hdiff])]

/-- C7: for series sharing exactly the same key set, `associate_data`
produces one row per key by direct lookup (the per-series payloads in
argument order), with the rows sorted ascending by key. -/
theorem associate_data_identical_keys {α : Type} [Inhabited α] (maxDiff : K)
    (root : List (K × α)) (args : List (List (K × α)))
    (hnd : (mapKeys root).Nodup)
    (hsame : ∀ m ∈ args, sameKeySet m root = true) :
    (associate_data maxDiff root args).length = (mapKeys root).length ∧
    ((associate_data maxDiff root args).map Prod.fst).Sorted (· ≤ ·) ∧
    ∀ k ps, (k, ps) ∈ associate_data maxDiff root args ↔
      (k ∈ mapKeys root ∧
        ps = lookupD root k :: args.map (fun m => lookupD m k)) := by
  rw [associate_data_of_sameKeySet maxDiff root args hnd hsame]
  refine ⟨?_, sortRows_sorted_keys _, ?_⟩
  · rw [(sortRows_perm _).length_eq, List.length_map]
  · intro k ps
    rw [mem_sortRows, List.mem_map]
    constructor
    · rintro ⟨k', hk', heq⟩
      injection heq with h1 h2
      subst h1
      exact ⟨hk', h2.symm⟩
    · rintro ⟨hk, hps⟩
      exact ⟨k, hk, by rw [hps]⟩

/-- C1: in the general branch (non-empty secondaries, key sets not all
identical), `associate_data` emits exactly one row per reference key that
found a match in every secondary series — the intersection of the
per-series matched key sets — and collapses to the empty list as soon as
one secondary series yields zero matches. -/
theorem associate_data_general_intersection {α : Type} [Inhabited α]
    (maxDiff : K) (root : List (K × α)) (args : List (List (K × α)))
    (hlen : args ≠ [])
    (hdiff : args.all (fun m => sameKeySet m root) = false) :
    (∀ k, (∃ ps, (k, ps) ∈ associate_data maxDiff root args) ↔
      (k ∈ mapKeys root ∧ ∀ other ∈ args,
        k ∈ (associate maxDiff root other).map Prod.fst)) ∧
    ((associate_data maxDiff root args).map Prod.fst).Nodup ∧
    ((∃ other ∈ args, associate maxDiff root other = []) →
      associate_data maxDiff root args = []) := by
  rw [associate_data_of_diff maxDiff root args hlen hdiff]
  refine ⟨?_, ?_, ?_⟩
  · intro k
    constructor
    · rintro ⟨ps, hmem⟩
      rw [mem_sortRows, List.mem_map] at hmem
      obtain ⟨k', hk', heq⟩ := hmem
      injection heq with h1 _
      subst h1
      rw [List.mem_filter, List.mem_dedup] at hk'
      refine ⟨hk'.1, fun other hother => ?_⟩
      have hall := List.all_eq_true.mp hk'.2 (rekeyMap maxDiff root other)
        (List.mem_map.mpr ⟨other, hother, rfl⟩)
      rw [decide_eq_true_iff, mapKeys_rekeyMap] at hall
      exact hall
    · rintro ⟨hk, hmatch⟩
      refine ⟨lookupD root k ::
        (args.map (fun other => rekeyMap maxDiff root other)).map
          (fun m => lookupD m k), ?_⟩
      rw [mem_sortRows, List.mem_map]
      refine ⟨k, ?_, rfl⟩
      rw [List.mem_filter, List.mem_dedup]
      refine ⟨hk, List.all_eq_true.mpr ?_⟩
      rintro m hm
      obtain ⟨other, hother, rfl⟩ := List.mem_map.mp hm
      rw [decide_eq_true_iff, mapKeys_rekeyMap]
      exact hmatch other hother
  · exact sortRows_map_keys_nodup _ _ (((mapKeys root).nodup_dedup).filter _)
  · rintro ⟨other, hother, hassoc⟩
    have hfilter : ((mapKeys root).dedup.filter
        (fun k => (args.map (fun other => rekeyMap maxDiff root other)).all
          (fun m => decide (k ∈ mapKeys m)))) = [] := by
      rw [List.filter_eq_nil_iff]
      intro k _
      intro hall
      have := List.all_eq_true.mp hall (rekeyMap maxDiff root other)
        (List.mem_map.mpr ⟨other, hother, rfl⟩)
      rw [decide_eq_true_iff, mapKeys_rekeyMap, hassoc] at this
      cases this
    rw [hfilter]
    rfl

end AssociationTheorems

theorem associate_data_identical_keys_witness :
    ((0:ℤ), [(100:ℕ), 5]) ∈
      associate_data (K := ℤ) 1 [(2, 200), (0, 100)] [[(0, 5), (2, 7)]] :=
  ((associate_data_identical_keys 1 [((2:ℤ), (200:ℕ)), (0, 100)] [[(0, 5), (2, 7)]]
      (by decide) (by decide)).2.2 0 [100, 5]).mpr ⟨by decide, by decide⟩

theorem associate_data_general_intersection_witness :
    (∃ ps, ((0:ℤ), ps) ∈ associate_data (K := ℤ) 1
        [(0, (100:ℕ)), (2, 200), (10, 300)] [[(0, 5), (9, 7)]]) ∧
    associate_data (K := ℤ) 1 [(0, (100:ℕ)), (2, 200), (10, 300)] [[(20, 5)]] = [] :=
  ⟨((associate_data_general_intersection 1 [((0:ℤ), (100:ℕ)), (2, 200), (10, 300)]
        [[(0, 5), (9, 7)]] (by decide) (by decide)).1 0).mpr ⟨by decide, by decide⟩,
    (associate_data_general_intersection 1 [((0:ℤ), (100:ℕ)), (2, 200), (10, 300)]
        [[(20, 5)]] (by decide) (by decide)).2.2 ⟨[(20, 5)], by decide, by decide⟩⟩

/-! ### Theorems about the trial finishing protocol -/

theorem results_def {K : Type} [DecidableEq K] (fed : List K)
    (returned : List (K × FrameData)) :
    (finish_trial fed returned).results = fed.filterMap
      (fun t => (lookup? returned t).map (fun d => make_frame_record t d)) :=
  rfl

theorem success_def {K : Type} [DecidableEq K] (fed : List K)
    (returned : List (K × FrameData)) :
    (finish_trial fed returned).success =
      decide ((finish_trial fed returned).results ≠ []) :=
  rfl

theorem warned_def {K : Type} [DecidableEq K] (fed : List K)
    (returned : List (K × FrameData)) :
    (finish_trial fed returned).warned =
      (returned.map Prod.fst).filter (fun t => decide (t ∉ fed)) :=
  rfl

theorem lookup?_isSome {K α : Type} [DecidableEq K] (m : List (K × α)) (k : K) :
    (lookup? m k).isSome = true ↔ k ∈ m.map Prod.fst := by
  simp [lookup?, List.find?_isSome, List.mem_map]

theorem finish_results_timestamps {K : Type} [DecidableEq K] (fed : List K)
    (returned : List (K × FrameData)) :
    (finish_trial fed returned).results.map FrameRecord.timestamp
      = fed.filter (fun t => decide (t ∈ returned.map Prod.fst)) := by
  rw [results_def]
  induction fed with
  | nil => rfl
  | cons t rest ih =>
    cases hd : lookup? returned t with
    | none =>
      have hmem : ¬ t ∈ returned.map Prod.fst := by
        intro hmem
        have := (lookup?_isSome returned t).mpr hmem
        rw [hd] at this
        cases this
      simp [hd, hmem, ih]
    | some d =>
      have hmem : t ∈ returned.map Prod.fst := by
        refine (lookup?_isSome returned t).mp ?_
        rw [hd]
        rfl
      have hts : (make_frame_record t d).timestamp = t := rfl
      simp [hd, hmem, ih, hts]



/-- C2: after `finish()`, the trial contains a FrameRecord exactly for each
timestamp both fed and present in the worker's returned mapping, in the
order frames were fed, with no placeholder for missing timestamps, and each
record carries that timestamp's returned processing time, feature count,
match count, tracking state (and remapped pose translation). -/
theorem finish_trial_results_spec {K : Type} [DecidableEq K] (fed : List K)
    (returned : List (K × FrameData)) (hnd : fed.Nodup) :
    (finish_trial fed returned).results.map FrameRecord.timestamp
        = fed.filter (fun t => decide (t ∈ returned.map Prod.fst)) ∧
    ((finish_trial fed returned).results.map FrameRecord.timestamp).Nodup ∧
    (∀ r ∈ (finish_trial fed returned).results, ∃ d,
      lookup? returned r.timestamp = some d ∧
      r.processing_time = d.processing_time ∧
      r.num_features = d.num_features ∧
      r.num_matches = d.num_matches ∧
      r.tracking_state = d.tracking_state ∧
      r.estimated_location = (d.pose.2.2, -d.pose.1, -d.pose.2.1)) := by
  refine ⟨finish_results_timestamps fed returned, ?_, ?_⟩
  · rw [finish_results_timestamps]
    exact hnd.filter _
  · intro r hr
    rw [results_def, List.mem_filterMap] at hr
    obtain ⟨t, _, hsome⟩ := hr
    obtain ⟨d, hd, hrec⟩ := Option.map_eq_some'.mp hsome
    refine ⟨d, ?_, ?_, ?_, ?_, ?_, ?_⟩ <;> rw [← hrec] <;>
      first
        | exact hd
        | rfl

/-- C3: a finished trial is successful iff at least one FrameRecord exists;
returned timestamps unmatched by any fed frame are warned about and
excluded, and when every returned timestamp is unmatched the result is a
non-exceptional value with `success = false` and no FrameRecords. -/
theorem finish_trial_success_spec {K : Type} [DecidableEq K] (fed : List K)
    (returned : List (K × FrameData)) :
    ((finish_trial fed returned).success = true ↔
      (finish_trial fed returned).results ≠ []) ∧
    (∀ t, t ∈ (finish_trial fed returned).warned ↔
      (t ∈ returned.map Prod.fst ∧ t ∉ fed)) ∧
    ((∀ t ∈ returned.map Prod.fst, t ∉ fed) →
      (finish_trial fed returned).success = false ∧
      (finish_trial fed returned).results = [] ∧
      (finish_trial fed returned).warned = returned.map Prod.fst) := by
  refine ⟨by rw [success_def]; exact decide_eq_true_iff, ?_, ?_⟩
  · intro t
    rw [warned_def, List.mem_filter, decide_eq_true_iff]
  · intro h
    have hres : (finish_trial fed returned).results = [] := by
      rw [results_def, List.filterMap_eq_nil_iff]
      intro t ht
      have hnone : lookup? returned t = none := by
        rw [← Option.not_isSome_iff_eq_none]
        intro hs
        exact h t ((lookup?_isSome returned t).mp (by simpa using hs)) ht
      rw [hnone]
      rfl
    refine ⟨?_, hres, ?_⟩
    · rw [success_def, hres]
      simp
    · rw [warned_def]
      refine List.filter_eq_self.mpr ?_
      intro t ht
      exact decide_eq_true (h t ht)





theorem finish_trial_results_spec_witness :
    (finish_trial fed_timestamps echo_results).results.map FrameRecord.timestamp
      = [0, 1, 2, 3, 4, 6, 7, 8, 9] ∧
    (finish_trial fed_timestamps echo_results).results.length = 9 ∧
    (5:ℤ) ∉ (finish_trial fed_timestamps echo_results).results.map
      FrameRecord.timestamp := by
  have h := finish_trial_results_spec fed_timestamps echo_results (by decide)
  have hlen := congrArg List.length h.1
  rw [List.length_map] at hlen
  refine ⟨?_, ?_, ?_⟩
  · rw [h.1]
    decide
  · rw [hlen]
    decide
  · rw [h.1]
    decide



theorem finish_trial_success_spec_witness :
    (finish_trial late_fed orphan_results).success = false ∧
    (finish_trial late_fed orphan_results).results = [] ∧
    (finish_trial late_fed orphan_results).warned = [0, 1] := by
  have h := (finish_trial_success_spec late_fed orphan_results).2.2 (by decide)
  refine ⟨h.1, h.2.1, ?_⟩
  rw [h.2.2]
  decide

/-! ### Theorems about the pose-error calculator, aggregate column selection and TUM file discovery -/


theorem norm3_nonneg (a : ℝ × ℝ × ℝ) : 0 ≤ norm3 a :=
  Real.sqrt_nonneg _

theorem make_pose_error_length_def (est ref : Transform) :
    (make_pose_error est ref).length = norm3 (sub3 est.location ref.location) :=
  rfl

theorem make_pose_error_direction_def (est ref : Transform) :
    (make_pose_error est ref).direction =
      if 0 < norm3 (sub3 est.location ref.location) then
        if 0 < norm3 ref.location then
          some (Real.arccos (min 1 (max 0 (dot3
            (div3 (sub3 est.location ref.location)
              (norm3 (sub3 est.location ref.location)))
            (div3 ref.location (norm3 ref.location))))))
        else none
      else none :=
  rfl

/-- C5: `make_pose_error` leaves the direction undefined iff the
translation error length is 0 or the reference location has zero norm;
otherwise it is the arccosine of the dot product of the unit error vector
and the unit reference-location vector, with the arccosine input clamped
to [0, 1]. -/
theorem make_pose_error_direction_iff (est ref : Transform) :
    ((make_pose_error est ref).direction = none ↔
      ((make_pose_error est ref).length = 0 ∨ norm3 ref.location = 0)) ∧
    (∀ θ, (make_pose_error est ref).direction = some θ →
      θ = Real.arccos (min 1 (max 0 (dot3
        (div3 (sub3 est.location ref.location)
          (norm3 (sub3 est.location ref.location)))
        (div3 ref.location (norm3 ref.location)))))) := by
  rw [make_pose_error_direction_def, make_pose_error_length_def]
  by_cases h1 : 0 < norm3 (sub3 est.location ref.location)
  · by_cases h2 : 0 < norm3 ref.location
    · rw [if_pos h1, if_pos h2]
      constructor
      · constructor
        · intro h
          cases h
        · rintro (hl | hr)
          · exact absurd hl (ne_of_gt h1)
          · exact absurd hr (ne_of_gt h2)
      · intro θ hθ
        injection hθ with hθ
        exact hθ.symm
    · rw [if_pos h1, if_neg h2]
      exact ⟨⟨fun _ => Or.inr (le_antisymm (not_lt.mp h2) (norm3_nonneg _)),
        fun _ => rfl⟩, fun θ hθ => by cases hθ⟩
  · rw [if_neg h1]
    exact ⟨⟨fun _ => Or.inl (le_antisymm (not_lt.mp h1) (norm3_nonneg _)),
      fun _ => rfl⟩, fun θ hθ => by cases hθ⟩

/-- C9: every defined direction lies in [0, π/2]; because the dot product
is clamped below at 0 before the arccosine, an obtuse angle between the
error vector and the reference-location vector is reported as π/2. -/
theorem make_pose_error_direction_range (est ref : Transform) (θ : ℝ)
    (h : (make_pose_error est ref).direction = some θ) :
    0 ≤ θ ∧ θ ≤ Real.pi / 2 ∧
    (dot3 (div3 (sub3 est.location ref.location)
        (norm3 (sub3 est.location ref.location)))
      (div3 ref.location (norm3 ref.location)) < 0 → θ = Real.pi / 2) := by
  rw [make_pose_error_direction_def] at h
  by_cases h1 : 0 < norm3 (sub3 est.location ref.location)
  case neg => rw [if_neg h1] at h; cases h
  by_cases h2 : 0 < norm3 ref.location
  case neg => rw [if_pos h1, if_neg h2] at h; cases h
  rw [if_pos h1, if_pos h2] at h
  injection h with hθ
  subst hθ
  refine ⟨Real.arccos_nonneg _,
    Real.arccos_le_pi_div_two.mpr (le_min zero_le_one (le_max_left 0 _)), ?_⟩
  intro hd
  rw [max_eq_left hd.le, min_eq_right zero_le_one, Real.arccos_zero]

/-- C6: for every pose `p` (with the unit orientation quaternion the
`Transform` invariant guarantees), `make_pose_error p p` has zero x, y, z
and length, an undefined direction, and zero rotation error. -/
theorem make_pose_error_self (p : Transform) (h : unit_quat p.rotation) :
    (make_pose_error p p).x = 0 ∧ (make_pose_error p p).y = 0 ∧
    (make_pose_error p p).z = 0 ∧ (make_pose_error p p).length = 0 ∧
    (make_pose_error p p).direction = none ∧ (make_pose_error p p).rot = 0 := by
  have hsub : sub3 p.location p.location = (0, 0, 0) := by
    simp [sub3]
  have hnorm : norm3 (sub3 p.location p.location) = 0 := by
    rw [hsub]
    show Real.sqrt ((0:ℝ) ^ 2 + (0:ℝ) ^ 2 + (0:ℝ) ^ 2) = 0
    norm_num
  refine ⟨?_, ?_, ?_, hnorm, ?_, ?_⟩
  · show (sub3 p.location p.location).1 = 0
    rw [hsub]
  · show (sub3 p.location p.location).2.1 = 0
    rw [hsub]
  · show (sub3 p.location p.location).2.2 = 0
    rw [hsub]
  · rw [make_pose_error_direction_def, hnorm, if_neg (lt_irrefl 0)]
  · show quat_diff p.rotation p.rotation = 0
    have hdot : dot4 p.rotation p.rotation = 1 := by
      simp only [dot4]
      rw [← h]
      ring
    rw [quat_diff, hdot, abs_one, min_self, Real.arccos_one, mul_zero]



/-- C4: the conversion between the algorithm's native frame and the
canonical world frame maps translation `(tx, ty, tz)` to location
`(tz, -tx, -ty)` — both in `make_camera_pose` (from the source) and in the
spec-modelled harness-side `make_relative_pose`; in particular the worker
pose matrix with translation `(10, -22.4, 13.2)` is exposed at location
`(13.2, -10, 22.4)`. -/
theorem harness_pose_location_remap :
    (∀ tx ty tz qw qx qy qz : ℝ,
      (make_camera_pose tx ty tz qw qx qy qz).location = (tz, -tx, -ty)) ∧
    (∀ m : Fin 4 → Fin 4 → ℝ,
      make_relative_pose_location m = (m 2 3, -(m 0 3), -(m 1 3))) ∧
    make_relative_pose_location frame_delta = (13.2, -10, 22.4) := by
  refine ⟨fun _ _ _ _ _ _ _ => rfl, fun _ => rfl, ?_⟩
  show (frame_delta 2 3, -(frame_delta 0 3), -(frame_delta 1 3)) = _
  have h0 : frame_delta 0 3 = 10 := rfl
  have h1 : frame_delta 1 3 = -22.4 := rfl
  have h2 : frame_delta 2 3 = 13.2 := rfl
  rw [h0, h1, h2, neg_neg]

theorem make_pose_error_self_witness :
    (make_pose_error ⟨(3, 4, 12), (1, 0, 0, 0)⟩ ⟨(3, 4, 12), (1, 0, 0, 0)⟩).length = 0 ∧
    (make_pose_error ⟨(3, 4, 12), (1, 0, 0, 0)⟩ ⟨(3, 4, 12), (1, 0, 0, 0)⟩).direction = none ∧
    (make_pose_error ⟨(3, 4, 12), (1, 0, 0, 0)⟩ ⟨(3, 4, 12), (1, 0, 0, 0)⟩).rot = 0 := by
  have h := make_pose_error_self ⟨(3, 4, 12), (1, 0, 0, 0)⟩
    (by show unit_quat (1, 0, 0, 0); norm_num [unit_quat])
  exact ⟨h.2.2.2.1, h.2.2.2.2.1, h.2.2.2.2.2⟩

theorem norm3_unit_x : norm3 (1, 0, 0) = 1 := by
  show Real.sqrt ((1:ℝ) ^ 2 + (0:ℝ) ^ 2 + (0:ℝ) ^ 2) = 1
  norm_num

theorem norm3_two_one : norm3 (sub3 (2, 0, 0) (1, 0, 0)) = 1 := by
  show Real.sqrt (((2:ℝ) - 1) ^ 2 + ((0:ℝ) - 0) ^ 2 + ((0:ℝ) - 0) ^ 2) = 1
  norm_num

theorem make_pose_error_direction_iff_witness :
    (make_pose_error ⟨(2, 0, 0), (1, 0, 0, 0)⟩ ⟨(1, 0, 0), (1, 0, 0, 0)⟩).direction ≠ none := by
  intro hnone
  have h := (make_pose_error_direction_iff ⟨(2, 0, 0), (1, 0, 0, 0)⟩
    ⟨(1, 0, 0), (1, 0, 0, 0)⟩).1.mp hnone
  rcases h with hl | hr
  · rw [make_pose_error_length_def] at hl
    have : norm3 (sub3 (2, 0, 0) (1, 0, 0)) = 1 := norm3_two_one
    rw [this] at hl
    norm_num at hl
  · have : norm3 (1, 0, 0) = 1 := norm3_unit_x
    rw [show (Transform.mk (1, 0, 0) (1, 0, 0, 0)).location = ((1:ℝ), (0:ℝ), (0:ℝ)) from rfl] at hr
    rw [this] at hr
    norm_num at hr



theorem direction_at_unit_offset :
    (make_pose_error ⟨(2, 0, 0), (1, 0, 0, 0)⟩ ⟨(1, 0, 0), (1, 0, 0, 0)⟩).direction
      = some (Real.arccos 1) := by
  rw [make_pose_error_direction_def]
  have e1 : (Transform.mk (2, 0, 0) (1, 0, 0, 0)).location = ((2:ℝ), (0:ℝ), (0:ℝ)) := rfl
  have e2 : (Transform.mk (1, 0, 0) (1, 0, 0, 0)).location = ((1:ℝ), (0:ℝ), (0:ℝ)) := rfl
  rw [e1, e2, norm3_two_one, norm3_unit_x, if_pos one_pos, if_pos one_pos]
  congr 1
  norm_num [sub3, div3, dot3]

theorem make_pose_error_direction_range_witness :
    0 ≤ Real.arccos 1 ∧ Real.arccos 1 ≤ Real.pi / 2 := by
  have h := make_pose_error_direction_range ⟨(2, 0, 0), (1, 0, 0, 0)⟩
    ⟨(1, 0, 0), (1, 0, 0, 0)⟩ (Real.arccos 1) direction_at_unit_offset
  exact ⟨h.1, h.2.1⟩



theorem mem_columns_to_compute (requested : List String) (name : String)
    (f : AggFunc) (a : String) :
    (name, f, a) ∈ columns_to_compute requested ↔
      (name ∈ requested ∧ ∃ cv ∈ aggValues, ∃ fv ∈ aggFuncs,
        name = fv.1 ++ "_" ++ cv.1 ∧ f = fv.2 ∧ a = cv.2) := by
  unfold columns_to_compute
  rw [List.mem_flatMap]
  constructor
  · rintro ⟨cv, hcv, hmem⟩
    rw [List.mem_filterMap] at hmem
    obtain ⟨fv, hfv, hif⟩ := hmem
    by_cases hc : fv.1 ++ "_" ++ cv.1 ∈ requested
    · rw [if_pos hc] at hif
      injection hif with hif
      rw [Prod.mk.injEq, Prod.mk.injEq] at hif
      obtain ⟨hn, hf, ha⟩ := hif
      subst hn
      exact ⟨hc, cv, hcv, fv, hfv, rfl, hf.symm, ha.symm⟩
    · rw [if_neg hc] at hif
      cases hif
  · rintro ⟨hname, cv, hcv, fv, hfv, hn, hf, ha⟩
    refine ⟨cv, hcv, List.mem_filterMap.mpr ⟨fv, hfv, ?_⟩⟩
    rw [if_pos (by rw [← hn]; exact hname), hn, hf, ha]

/-- C8: `FrameErrorResult.get_results` schedules an aggregate computation
exactly for the requested column names of the form `<func>_<series>`
(five aggregate functions over the six lost/found series) and for no name
that was not requested. -/
theorem get_results_computes_requested_aggregates
    (requested : List String) (name : String) :
    ((∃ f a, (name, f, a) ∈ columns_to_compute requested) ↔
      (name ∈ requested ∧ ∃ fv ∈ aggFuncs, ∃ cv ∈ aggValues,
        name = fv.1 ++ "_" ++ cv.1)) ∧
    (∀ f a, (name, f, a) ∈ columns_to_compute requested →
      ∃ fv ∈ aggFuncs, ∃ cv ∈ aggValues,
        name = fv.1 ++ "_" ++ cv.1 ∧ f = fv.2 ∧ a = cv.2) := by
  constructor
  · constructor
    · rintro ⟨f, a, hmem⟩
      obtain ⟨hname, cv, hcv, fv, hfv, hn, _, _⟩ :=
        (mem_columns_to_compute requested name f a).mp hmem
      exact ⟨hname, fv, hfv, cv, hcv, hn⟩
    · rintro ⟨hname, fv, hfv, cv, hcv, hn⟩
      exact ⟨fv.2, cv.2, (mem_columns_to_compute requested name fv.2 cv.2).mpr
        ⟨hname, cv, hcv, fv, hfv, hn, rfl, rfl⟩⟩
  · intro f a hmem
    obtain ⟨_, cv, hcv, fv, hfv, hn, hf, ha⟩ :=
      (mem_columns_to_compute requested name f a).mp hmem
    exact ⟨fv, hfv, cv, hcv, hn, hf, ha⟩

theorem get_results_computes_requested_aggregates_witness :
    ("mean_times_lost" ∈ ["mean_times_lost", "unrelated"] ∧
      ∃ fv ∈ aggFuncs, ∃ cv ∈ aggValues,
        "mean_times_lost" = fv.1 ++ "_" ++ cv.1) :=
  (get_results_computes_requested_aggregates
    ["mean_times_lost", "unrelated"] "mean_times_lost").1.mp
    ⟨AggFunc.fmean, "times_lost", by decide⟩

/-- C10: `find_files` returns `(root, rgb.txt, depth.txt, groundtruth.txt)`
while `import_dataset` unpacks `(root, rgb, trajectory, depth)`, so the
ground-truth trajectory is parsed from `depth.txt` and the depth image
filenames from `groundtruth.txt`. -/
theorem import_dataset_swaps_depth_and_trajectory :
    (∀ root : String, find_files root =
      (root, root ++ "/rgb.txt", root ++ "/depth.txt", root ++ "/groundtruth.txt")) ∧
    (∀ root : String, import_dataset_metadata_paths root =
      (root ++ "/depth.txt", root ++ "/groundtruth.txt")) ∧
    import_dataset_metadata_paths "dataset" ≠
      ("dataset/groundtruth.txt", "dataset/depth.txt") := by
  refine ⟨fun _ => rfl, fun _ => rfl, by decide⟩

theorem import_dataset_swaps_depth_and_trajectory_witness :
    import_dataset_metadata_paths "dataset" =
      ("dataset" ++ "/depth.txt", "dataset" ++ "/groundtruth.txt") :=
  import_dataset_swaps_depth_and_trajectory.2.1 "dataset"

end ArvetSlam
